import Mathlib

/-!
# Verification of the black-skulls streaming option-analytics library

Shallow embedding of the library's source into Lean 4 and proofs about it.

Conventions used throughout:
* Rust `f64` values are embedded as real numbers `ℝ` wherever transcendental
  functions (`exp`, `ln`, `sqrt`, `erf`) occur, and as rationals `ℚ` in the
  candle aggregator, whose arithmetic is exact (`max`, `min`, `+`, `<`, `⌊·⌋`).
* Rust `u32`/`usize` counters are embedded as `ℕ` (subtraction is truncated,
  matching release-mode wrapping only on in-range values; all claims under
  study stay far below `2^32`).
* `&mut self` methods returning `T` are embedded as pure functions from the
  state to a pair of the result and the new state (or the new state and the
  emitted value).
* Fallible Rust code (`anyhow::Result`, `Result<f64, f64>`) is embedded with
  `Except`.
-/

deriving instance DecidableEq for Except

namespace BlackSkulls

/-! ## Quotes and candles (`quote.rs`, `candle_stream.rs`)

Timestamps (`time::OffsetDateTime`) are embedded as rationals measured in
seconds from the Unix epoch, and `time::Duration` likewise as a rational
number of seconds; `f64` prices and volumes are embedded as `ℚ`, which is
exact for every operation this module performs. -/

/-- Embeds `Quote` from `quote.rs`. -/
structure Quote where
  timestamp : ℚ
  price : ℚ
  volume : ℚ
deriving DecidableEq

/-- Embeds `Candle` from `candle_stream.rs`.  The Rust field `open` is a Lean
keyword, hence `open_`. -/
structure Candle where
  open_ : ℚ
  high : ℚ
  low : ℚ
  close : ℚ
  volume : ℚ
deriving DecidableEq

/-- Embeds `Candle::default()` (`#[derive(Default)]`: every field zero). -/
def Candle.default : Candle := ⟨0, 0, 0, 0, 0⟩

/-- Embeds `Quote::new_candle`: OHLV from the quote, close defaulted to 0. -/
def Quote.new_candle (q : Quote) : Candle :=
  { Candle.default with open_ := q.price, high := q.price, low := q.price, volume := q.volume }

/-- Embeds `Quote::update_candle`. -/
def Quote.update_candle (q : Quote) (candle : Candle) : Candle :=
  { candle with
    high := max candle.high q.price
    low := min candle.low q.price
    volume := candle.volume + q.volume }

/-- Embeds `Quote::close_candle`. -/
def Quote.close_candle (q : Quote) (candle : Candle) : Candle :=
  { candle with close := q.price }

/-- Embeds the `anyhow` error raised by `CandleStream::try_handle_quote`
(`"received old quote: latest: {last:?}; new: {quote:?}"`): the message's
payload is exactly the two offending quotes. -/
structure OldQuoteError where
  latest : Quote
  new : Quote
deriving DecidableEq

/-- Embeds the state fields of `CandleStream` (the inner `quote_stream` is
driver plumbing and carries no aggregation state). -/
structure CandleStreamState where
  candle : Candle
  last : Option Quote
  candle_start : ℚ
  candle_duration : ℚ
deriving DecidableEq

/-- Embeds `CandleStream::new` (minus the positivity assertion, which is a
constructor-time panic, not part of the state transition). `UNIX_EPOCH` is
the origin `0`. -/
def CandleStreamState.new (candle_duration : ℚ) : CandleStreamState :=
  ⟨Candle.default, none, 0, candle_duration⟩

/-- Embeds `CandleStream::try_handle_quote`.  The Rust method mutates `self`
and returns `Result<Option<(Candle, OffsetDateTime)>>`; here the new state is
returned alongside.  On the `bail!` path the Rust method returns before any
mutation, so the input state is returned unchanged. -/
def CandleStreamState.tryHandleQuote (s : CandleStreamState) (quote : Quote) :
    Except OldQuoteError (Option (Candle × ℚ)) × CandleStreamState :=
  match s.last with
  | none => (Except.ok none, { s with last := some quote })
  | some last =>
    if quote.timestamp < last.timestamp then
      (Except.error ⟨last, quote⟩, s)
    else
      if s.candle_start + s.candle_duration ≤ quote.timestamp then
        let closed := last.close_candle s.candle
        let skipped : ℤ := ⌊(quote.timestamp - s.candle_start) / s.candle_duration⌋
        (Except.ok (some (closed, s.candle_start)),
          { candle := quote.new_candle
            last := some quote
            candle_start := s.candle_start + s.candle_duration * (skipped : ℚ)
            candle_duration := s.candle_duration })
      else
        (Except.ok none,
          { s with candle := quote.update_candle s.candle, last := some quote })

/-- Claim C2: feeding quotes `(t=0,p=10)`, `(t=5,p=12)`, `(t=9,p=8)` (unit
volumes) into a fresh aggregator with bucket duration `10` yields no candle,
and a quote at `t=10` then emits a candle for bucket start `0`.  The code
emits `{open: 0, high: 12, low: 0, close: 8, volume: 2}` — not the claimed
`{open: 10, high: 12, low: 8, close: 8, volume: 3}` — because the bootstrap
step records the first quote only as `last` and never opens a candle from it,
leaving the defaulted all-zero candle to absorb the later quotes. -/
theorem candle_first_bucket_code_eval :
    (((CandleStreamState.new 10).tryHandleQuote ⟨0, 10, 1⟩).1 = Except.ok none) ∧
    ((((CandleStreamState.new 10).tryHandleQuote ⟨0, 10, 1⟩).2.tryHandleQuote
        ⟨5, 12, 1⟩).1 = Except.ok none) ∧
    (((((CandleStreamState.new 10).tryHandleQuote ⟨0, 10, 1⟩).2.tryHandleQuote
        ⟨5, 12, 1⟩).2.tryHandleQuote ⟨9, 8, 1⟩).1 = Except.ok none) ∧
    ((((((CandleStreamState.new 10).tryHandleQuote ⟨0, 10, 1⟩).2.tryHandleQuote
        ⟨5, 12, 1⟩).2.tryHandleQuote ⟨9, 8, 1⟩).2.tryHandleQuote ⟨10, 7, 1⟩).1 =
      Except.ok (some (⟨0, 12, 0, 8, 2⟩, 0))) ∧
    (⟨0, 12, 0, 8, 2⟩ : Candle) ≠ ⟨10, 12, 8, 8, 3⟩ := by
  have h1 : (CandleStreamState.new 10).tryHandleQuote ⟨0, 10, 1⟩ =
      (Except.ok none, ⟨Candle.default, some ⟨0, 10, 1⟩, 0, 10⟩) := rfl
  have h2 : (⟨Candle.default, some ⟨0, 10, 1⟩, 0, 10⟩ : CandleStreamState).tryHandleQuote
      ⟨5, 12, 1⟩ = (Except.ok none, ⟨⟨0, 12, 0, 0, 1⟩, some ⟨5, 12, 1⟩, 0, 10⟩) := by
    norm_num [CandleStreamState.tryHandleQuote, Quote.update_candle, Candle.default,
      max_def, min_def]
  have h3 : (⟨⟨0, 12, 0, 0, 1⟩, some ⟨5, 12, 1⟩, 0, 10⟩ : CandleStreamState).tryHandleQuote
      ⟨9, 8, 1⟩ = (Except.ok none, ⟨⟨0, 12, 0, 0, 2⟩, some ⟨9, 8, 1⟩, 0, 10⟩) := by
    norm_num [CandleStreamState.tryHandleQuote, Quote.update_candle, max_def, min_def]
  have h4 : ((⟨⟨0, 12, 0, 0, 2⟩, some ⟨9, 8, 1⟩, 0, 10⟩ : CandleStreamState).tryHandleQuote
      ⟨10, 7, 1⟩).1 = Except.ok (some (⟨0, 12, 0, 8, 2⟩, 0)) := by
    norm_num [CandleStreamState.tryHandleQuote, Quote.close_candle]
  exact ⟨by simp [h1], by simp [h1, h2], by simp [h1, h2, h3], by simp [h1, h2, h3, h4],
    by decide⟩

/-- Claim C7: with a previous quote recorded, a strictly older quote makes
`try_handle_quote` return the descriptive ordering error carrying both the
latest and the offending quote, not an emitted candle. -/
theorem old_quote_yields_error (s : CandleStreamState) (q lq : Quote)
    (hl : s.last = some lq) (ht : q.timestamp < lq.timestamp) :
    (s.tryHandleQuote q).1 = Except.error ⟨lq, q⟩ := by
  unfold CandleStreamState.tryHandleQuote
  rw [hl]
  simp [ht]

/-- Witness for C7 at a concrete state and quote. -/
theorem old_quote_yields_error_witness :
    (({ candle := Candle.default, last := some ⟨5, 2, 1⟩, candle_start := 0,
        candle_duration := 10 } : CandleStreamState).tryHandleQuote ⟨3, 4, 1⟩).1 =
      Except.error ⟨⟨5, 2, 1⟩, ⟨3, 4, 1⟩⟩ :=
  old_quote_yields_error _ _ _ rfl (by norm_num)

/-- Claim C9: whenever `try_handle_quote` returns an ordering error, the
aggregator state is returned exactly as it was — the error is raised before
any mutation, so a failed input is atomic. -/
theorem error_preserves_state (s : CandleStreamState) (q : Quote) (e : OldQuoteError)
    (h : (s.tryHandleQuote q).1 = Except.error e) :
    (s.tryHandleQuote q).2 = s := by
  unfold CandleStreamState.tryHandleQuote at h ⊢
  match hl : s.last with
  | none => simp [hl] at h
  | some last =>
    simp only [hl] at h ⊢
    by_cases hq : q.timestamp < last.timestamp
    · simp [hq]
    · simp [hq] at h
      split at h <;> simp_all

/-- Witness for C9 at a concrete state and quote. -/
theorem error_preserves_state_witness :
    (({ candle := Candle.default, last := some ⟨7, 1, 1⟩, candle_start := 0,
        candle_duration := 10 } : CandleStreamState).tryHandleQuote ⟨2, 1, 1⟩).2 =
      { candle := Candle.default, last := some ⟨7, 1, 1⟩, candle_start := 0,
        candle_duration := 10 } :=
  error_preserves_state _ _ ⟨⟨7, 1, 1⟩, ⟨2, 1, 1⟩⟩ rfl

/-! ## Realized-volatility stream (`volatility_stream.rs`)

`f64` prices are embedded as `ℝ`; the `u32` fields `memory` and `count` as
`ℕ` (truncated subtraction matches `u32` only away from underflow, and every
claim under study has `memory ≥ 1`, where no underflow occurs).  The guard
dropping non-finite (`NaN`/`∞`) prices is vacuous in the real-number
embedding, where every value is finite, so it does not appear.  The emitted
`Volatility { _priced, value }` is embedded as its `value` field. -/

/-- Embeds the state fields of `VolatilityStream` (the inner `price_stream`
and the phantom marker carry no estimator state). -/
structure VolatilityStreamState where
  memory : ℕ
  last_variance : ℝ
  count : ℕ
  sum_prices : ℝ

/-- Embeds `VolatilityStream::new`. -/
def VolatilityStreamState.new (memory : ℕ) : VolatilityStreamState :=
  ⟨memory, 0, 0, 0⟩

/-- Embeds `VolatilityStream::try_handle_price`: the new state and the emitted
volatility (the `u32 → f64` conversions become `ℕ → ℝ` casts, which never
fail, so the `.ok()?` propagation cannot return `None` here). -/
noncomputable def VolatilityStreamState.tryHandlePrice (s : VolatilityStreamState)
    (price : ℝ) : VolatilityStreamState × Option ℝ :=
  let nominator1 : ℝ := ((s.memory - 1) * s.count : ℕ)
  let denominator : ℝ := ((s.memory + 1) * (s.count + 1) : ℕ)
  let nominator2 : ℝ := 4
  let variance := (nominator1 * s.last_variance + nominator2 * price * s.sum_prices) /
    denominator
  (⟨s.memory, variance, s.count + 1, s.sum_prices + price⟩, some (Real.sqrt variance))

/-- Claim C1: with window length `N = 2`, the claimed behaviour is no emission
on the first price and, after two identical prices, an emitted volatility of
`0.0`.  The code instead emits already on the first price (value `0`), and on
the second price `5.0` emits `√(50/3) ≠ 0`: `try_handle_price` implements the
recursive weighted update `((m−1)·n·v + 4·p·Σp) / ((m+1)·(n+1))`, keeps no
window, and never suspends. -/
theorem volatility_recursive_code_eval :
    (((VolatilityStreamState.new 2).tryHandlePrice 5).2 = some 0) ∧
    ((((VolatilityStreamState.new 2).tryHandlePrice 5).1.tryHandlePrice 5).2 =
      some (Real.sqrt (50 / 3))) ∧
    Real.sqrt (50 / 3) ≠ 0 := by
  have h1 : (VolatilityStreamState.new 2).tryHandlePrice 5 =
      (⟨2, 0, 1, 5⟩, some 0) := by
    simp [VolatilityStreamState.new, VolatilityStreamState.tryHandlePrice]
  have h2 : ((⟨2, 0, 1, 5⟩ : VolatilityStreamState).tryHandlePrice 5).2 =
      some (Real.sqrt (50 / 3)) := by
    simp only [VolatilityStreamState.tryHandlePrice]
    norm_num
  refine ⟨by simp [h1], by simp [h1, h2], ?_⟩
  exact (Real.sqrt_pos.mpr (by norm_num)).ne'

/-- Claim C10: for every memory parameter `m ≥ 1`, the very first price fed
to a freshly constructed stream is answered with an emission of exactly `0`,
because `count = 0` and `sum_prices = 0` collapse the recursive variance
update to `0`. -/
theorem first_price_emits_zero (m : ℕ) (_hm : 1 ≤ m) (p : ℝ) :
    ((VolatilityStreamState.new m).tryHandlePrice p).2 = some 0 := by
  simp [VolatilityStreamState.new, VolatilityStreamState.tryHandlePrice]

/-- Witness for C10 at `m = 2`, `p = 7`. -/
theorem first_price_emits_zero_witness :
    1 ≤ 2 ∧ ((VolatilityStreamState.new 2).tryHandlePrice 7).2 = some 0 :=
  ⟨by norm_num, first_price_emits_zero 2 (by norm_num) 7⟩

/-! ## Black-Scholes pricing and Greeks engine (`black_schools.rs`)

All `f64` quantities are embedded as `ℝ`.  The `special` crate's
`Error::error` method is the Gauss error function, embedded by its standard
integral definition.  Rust float constants `SQRT_2`, `PI` and
`FRAC_2_SQRT_PI` become their exact real values. -/

noncomputable section

/-- `std::f64::consts::SQRT_2`. -/
def SQRT_2 : ℝ := Real.sqrt 2

/-- `std::f64::consts::PI`. -/
def PI : ℝ := Real.pi

/-- `std::f64::consts::FRAC_2_SQRT_PI`, the constant `2/√π`. -/
def FRAC_2_SQRT_PI : ℝ := 2 / Real.sqrt Real.pi

/-- The Gauss error function computed by `special::Error::error`:
`erf x = (2/√π) · ∫ t in 0..x, exp (−t²)`. -/
def erf (x : ℝ) : ℝ := 2 / Real.sqrt PI * ∫ t in (0:ℝ)..x, Real.exp (-t ^ 2)

/-- Embeds `cum_norm`. -/
def cum_norm (x : ℝ) : ℝ := erf (x / SQRT_2) * 0.5 + 0.5

/-- Embeds `inc_norm`. -/
def inc_norm (x : ℝ) : ℝ := Real.exp (-x ^ 2 / 2) / (Real.sqrt PI * SQRT_2)

/-- Embeds `d1` (the standardized log-moneyness term). -/
def d1 (s k discount sqrt_maturity_sigma : ℝ) : ℝ :=
  Real.log (s / (k * discount)) / sqrt_maturity_sigma + 0.5 * sqrt_maturity_sigma

/-- Embeds `max_or_zero`. -/
def max_or_zero (v : ℝ) : ℝ := if v > 0 then v else 0

/-- Embeds `call_discount`. -/
def call_discount (s k discount sqrt_maturity_sigma : ℝ) : ℝ :=
  if sqrt_maturity_sigma > 0 then
    let d1v := d1 s k discount sqrt_maturity_sigma
    s * cum_norm d1v - k * discount * cum_norm (d1v - sqrt_maturity_sigma)
  else
    max_or_zero (s - k)

/-- Embeds `call`. -/
def call (s k rate sigma maturity : ℝ) : ℝ :=
  call_discount s k (Real.exp (-rate * maturity)) (Real.sqrt maturity * sigma)

/-- Embeds `call_delta`. -/
def call_delta (s k rate sigma maturity : ℝ) : ℝ :=
  let sqrt_maturity_sigma := Real.sqrt maturity * sigma
  if sqrt_maturity_sigma > 0 then
    let discount := Real.exp (-rate * maturity)
    cum_norm (d1 s k discount sqrt_maturity_sigma)
  else if s > k then 1 else 0

/-- Embeds `call_gamma`. -/
def call_gamma (s k rate sigma maturity : ℝ) : ℝ :=
  let sqrt_maturity_sigma := Real.sqrt maturity * sigma
  if sqrt_maturity_sigma > 0 then
    let discount := Real.exp (-rate * maturity)
    inc_norm (d1 s k discount sqrt_maturity_sigma) / (s * sqrt_maturity_sigma)
  else 0

/-- Embeds `call_vega`. -/
def call_vega (s k rate sigma maturity : ℝ) : ℝ :=
  let sqrt_maturity_sigma := Real.sqrt maturity * sigma
  if sqrt_maturity_sigma > 0 then
    let discount := Real.exp (-rate * maturity)
    s * inc_norm (d1 s k discount sqrt_maturity_sigma) * sqrt_maturity_sigma / sigma
  else 0

/-- Embeds `call_theta`. -/
def call_theta (s k rate sigma maturity : ℝ) : ℝ :=
  let sqrt_t := Real.sqrt maturity
  let sqrt_maturity_sigma := sqrt_t * sigma
  if sqrt_maturity_sigma > 0 then
    let discount := Real.exp (-rate * maturity)
    let d1v := d1 s k discount sqrt_maturity_sigma ;
    -s * inc_norm d1v * sigma / (2 * sqrt_t) -
      rate * k * discount * cum_norm (d1v - sqrt_maturity_sigma)
  else 0

/-- Embeds `call_rho`. -/
def call_rho (s k rate sigma maturity : ℝ) : ℝ :=
  let sqrt_t := Real.sqrt maturity
  let sqrt_maturity_sigma := sqrt_t * sigma
  if sqrt_maturity_sigma > 0 then
    let discount := Real.exp (-rate * maturity)
    let d1v := d1 s k discount sqrt_maturity_sigma
    k * discount * maturity * cum_norm (d1v - sqrt_maturity_sigma)
  else 0

/-- Embeds `put_discount`. -/
def put_discount (s k discount sqrt_maturity_sigma : ℝ) : ℝ :=
  if sqrt_maturity_sigma > 0 then
    let d1v := d1 s k discount sqrt_maturity_sigma
    k * discount * cum_norm (sqrt_maturity_sigma - d1v) - s * cum_norm (-d1v)
  else
    max_or_zero (k - s)

/-- Embeds `put`. -/
def put (s k rate sigma maturity : ℝ) : ℝ :=
  put_discount s k (Real.exp (-rate * maturity)) (Real.sqrt maturity * sigma)

/-- Embeds `put_delta`. -/
def put_delta (s k rate sigma maturity : ℝ) : ℝ :=
  let sqrt_maturity_sigma := Real.sqrt maturity * sigma
  if sqrt_maturity_sigma > 0 then
    let discount := Real.exp (-rate * maturity)
    cum_norm (d1 s k discount sqrt_maturity_sigma) - 1
  else if k > s then -1 else 0

/-- Embeds `put_gamma` (same as the call's). -/
def put_gamma (s k rate sigma maturity : ℝ) : ℝ := call_gamma s k rate sigma maturity

/-- Embeds `put_vega` (same as the call's). -/
def put_vega (s k rate sigma maturity : ℝ) : ℝ := call_vega s k rate sigma maturity

/-- Embeds `put_theta`. -/
def put_theta (s k rate sigma maturity : ℝ) : ℝ :=
  let sqrt_t := Real.sqrt maturity
  let sqrt_maturity_sigma := sqrt_t * sigma
  if sqrt_maturity_sigma > 0 then
    let discount := Real.exp (-rate * maturity)
    let d1v := d1 s k discount sqrt_maturity_sigma ;
    -s * inc_norm d1v * sigma / (2 * sqrt_t) +
      rate * k * discount * cum_norm (-d1v + sqrt_maturity_sigma)
  else 0

/-- Embeds `put_rho`. -/
def put_rho (s k rate sigma maturity : ℝ) : ℝ :=
  let sqrt_t := Real.sqrt maturity
  let sqrt_maturity_sigma := sqrt_t * sigma
  if sqrt_maturity_sigma > 0 then
    let discount := Real.exp (-rate * maturity)
    let d1v := d1 s k discount sqrt_maturity_sigma ;
    -1 * k * discount * maturity * cum_norm (-d1v + sqrt_maturity_sigma)
  else 0

end

/-- The error function is odd: substitution `t ↦ −t` in the defining
integral, using that the Gaussian integrand is even. -/
theorem erf_neg (x : ℝ) : erf (-x) = -erf x := by
  unfold erf
  have h : (∫ t in (0:ℝ)..x, Real.exp (-t ^ 2)) =
      ∫ t in (-x)..(0:ℝ), Real.exp (-t ^ 2) := by
    have h0 := intervalIntegral.integral_comp_neg (a := (0:ℝ)) (b := x)
      (f := fun t => Real.exp (-t ^ 2))
    simpa using h0
  have h2 : (∫ t in (0:ℝ)..(-x), Real.exp (-t ^ 2)) =
      -∫ t in (0:ℝ)..x, Real.exp (-t ^ 2) := by
    rw [intervalIntegral.integral_symm (-x) 0, h]
  rw [h2]
  ring

/-- Reflection law for the embedded normal CDF: `Φ(−x) = 1 − Φ(x)`. -/
theorem cum_norm_neg (x : ℝ) : cum_norm (-x) = 1 - cum_norm x := by
  unfold cum_norm
  rw [show -x / SQRT_2 = -(x / SQRT_2) by ring, erf_neg]
  ring

/-- `max_or_zero` is `max · 0`. -/
theorem max_or_zero_eq_max (v : ℝ) : max_or_zero v = max v 0 := by
  unfold max_or_zero
  split
  · exact (max_eq_left (le_of_lt (by assumption))).symm
  · exact (max_eq_right (not_lt.mp (by assumption))).symm

/-- Claim C4: whenever `σ·√T = 0`, for all `S > 0`, `K > 0` and any rate the
call price is `max (S−K) 0`, the put price is `max (K−S) 0`, the call delta
is `1` if `S > K` else `0`, the put delta is `−1` if `K > S` else `0`, and
gamma, vega, theta and rho (call and put) are all `0`. -/
theorem degenerate_intrinsic_values (s k rate sigma maturity : ℝ)
    (_hs : 0 < s) (_hk : 0 < k) (h : Real.sqrt maturity * sigma = 0) :
    call s k rate sigma maturity = max (s - k) 0 ∧
    put s k rate sigma maturity = max (k - s) 0 ∧
    call_delta s k rate sigma maturity = (if s > k then 1 else 0) ∧
    put_delta s k rate sigma maturity = (if k > s then -1 else 0) ∧
    call_gamma s k rate sigma maturity = 0 ∧
    put_gamma s k rate sigma maturity = 0 ∧
    call_vega s k rate sigma maturity = 0 ∧
    put_vega s k rate sigma maturity = 0 ∧
    call_theta s k rate sigma maturity = 0 ∧
    put_theta s k rate sigma maturity = 0 ∧
    call_rho s k rate sigma maturity = 0 ∧
    put_rho s k rate sigma maturity = 0 := by
  simp only [call, put, call_delta, put_delta, call_gamma, put_gamma, call_vega,
    put_vega, call_theta, put_theta, call_rho, put_rho, call_discount, put_discount, h,
    gt_iff_lt, lt_irrefl, if_false, max_or_zero_eq_max]
  refine ⟨?_, ?_, ?_, ?_, ?_, ?_, ?_, ?_, ?_, ?_, ?_, ?_⟩ <;> trivial

/-- Witness for C4 at `S = 2`, `K = 1`, `r = 5`, `σ = 0`, `T = 1`. -/
theorem degenerate_intrinsic_values_witness :
    call 2 1 5 0 1 = max (2 - 1 : ℝ) 0 :=
  (degenerate_intrinsic_values 2 1 5 0 1 (by norm_num) (by norm_num) (by simp)).1

/-- Claim C3 fails as stated: at `S = 5`, `K = 4`, `r = ln 2`, `σ = 0`,
`T = 1` (a "valid input" under the claim's `σ ≥ 0`, `T ≥ 0`), the code takes
the degenerate branch and `call − put = 1`, while
`S − K·e^{−rT} = 5 − 4·(1/2) = 3`: off by `2`, far beyond the `1e-9`
tolerance. -/
theorem put_call_parity_fails_degenerate :
    |(call 5 4 (Real.log 2) 0 1 - put 5 4 (Real.log 2) 0 1) -
      (5 - 4 * Real.exp (-Real.log 2 * 1))| > 1e-9 := by
  have hsq : Real.sqrt 1 * (0:ℝ) = 0 := by simp
  have hcall : call 5 4 (Real.log 2) 0 1 = 1 := by
    simp [call, call_discount, hsq, max_or_zero]
    norm_num
  have hput : put 5 4 (Real.log 2) 0 1 = 0 := by
    simp [put, put_discount, hsq, max_or_zero]
    norm_num
  have hexp : Real.exp (-Real.log 2 * 1) = 1 / 2 := by
    rw [mul_one, Real.exp_neg, Real.exp_log (by norm_num : (0:ℝ) < 2)]
    norm_num
  rw [hcall, hput, hexp]
  norm_num

/-- Claim C3, amended: restricted to `σ > 0` and `T > 0` (so that the code's
non-degenerate branch applies), put-call parity
`call − put = S − K·e^{−rT}` holds exactly in the real-number embedding; in
particular with `S = K` and `r = 0`, the call price equals the put price. -/
theorem put_call_parity_amended (s k rate sigma maturity : ℝ)
    (_hs : 0 < s) (_hk : 0 < k) (hsig : 0 < sigma) (hmat : 0 < maturity) :
    (call s k rate sigma maturity - put s k rate sigma maturity =
      s - k * Real.exp (-rate * maturity)) ∧
    (s = k → rate = 0 → call s k rate sigma maturity = put s k rate sigma maturity) := by
  have hpos : Real.sqrt maturity * sigma > 0 :=
    mul_pos (Real.sqrt_pos.mpr hmat) hsig
  have hparity : call s k rate sigma maturity - put s k rate sigma maturity =
      s - k * Real.exp (-rate * maturity) := by
    simp only [call, put, call_discount, put_discount, if_pos hpos]
    set a := Real.sqrt maturity * sigma with ha
    set dv := d1 s k (Real.exp (-rate * maturity)) a with hdv
    have r1 : cum_norm (-dv) = 1 - cum_norm dv := cum_norm_neg dv
    have r2 : cum_norm (a - dv) = 1 - cum_norm (dv - a) := by
      rw [show a - dv = -(dv - a) by ring, cum_norm_neg]
    rw [r1, r2]
    ring
  refine ⟨hparity, fun hsk hr => ?_⟩
  have : call s k rate sigma maturity - put s k rate sigma maturity = 0 := by
    rw [hparity, hsk, hr]
    simp
  linarith

/-- Witness for the amended C3 at `S = K = 1`, `r = 0`, `σ = 1`, `T = 1`. -/
theorem put_call_parity_amended_witness :
    call 1 1 0 1 1 - put 1 1 0 1 1 = 1 - 1 * Real.exp (-0 * 1) :=
  (put_call_parity_amended 1 1 0 1 1 (by norm_num) (by norm_num) (by norm_num)
    (by norm_num)).1

/-- Embeds `PricesAndGreeks`. -/
structure PricesAndGreeks where
  call_price : ℝ
  call_delta : ℝ
  call_gamma : ℝ
  call_theta : ℝ
  call_vega : ℝ
  call_rho : ℝ
  put_price : ℝ
  put_delta : ℝ
  put_gamma : ℝ
  put_theta : ℝ
  put_vega : ℝ
  put_rho : ℝ

/-- Embeds `compute_all`. -/
noncomputable def compute_all (stock strike rate sigma maturity : ℝ) : PricesAndGreeks :=
  let discount := Real.exp (-rate * maturity)
  let sqrt_maturity := Real.sqrt maturity
  let sqrt_maturity_sigma := sqrt_maturity * sigma
  let k_discount := strike * discount
  if sqrt_maturity_sigma > 0 then
    let d1v := d1 stock strike discount sqrt_maturity_sigma
    let d2 := d1v - sqrt_maturity_sigma
    let cdf_d1 := cum_norm d1v
    let cdf_d2 := cum_norm d2
    let pdf_d1 := inc_norm d1v
    let call_price := stock * cdf_d1 - k_discount * cdf_d2
    let call_delta := cdf_d1
    let call_gamma := pdf_d1 / (stock * sqrt_maturity_sigma)
    let call_theta :=
      -stock * pdf_d1 * sigma / (2 * sqrt_maturity) - rate * k_discount * cdf_d2
    let call_vega := stock * pdf_d1 * sqrt_maturity_sigma / sigma
    let call_rho := k_discount * maturity * cdf_d2
    let put_price := call_price + k_discount - stock
    let put_delta := cdf_d1 - 1
    let put_gamma := call_gamma
    let put_theta :=
      -stock * pdf_d1 * sigma / (2 * sqrt_maturity) + rate * k_discount * (1 - cdf_d2)
    let put_vega := call_vega
    let put_rho := -1 * k_discount * maturity * (1 - cdf_d2)
    ⟨call_price, call_delta, call_gamma, call_theta, call_vega, call_rho,
      put_price, put_delta, put_gamma, put_theta, put_vega, put_rho⟩
  else
    ⟨max_or_zero (stock - strike), if stock > strike then 1 else 0, 0, 0, 0, 0,
      max_or_zero (strike - stock), if strike > stock then -1 else 0, 0, 0, 0, 0⟩

/-- Claim C5: every field of the `PricesAndGreeks` value returned by
`compute_all` equals the corresponding standalone pricing/Greek function at
the same inputs, in both the general and the degenerate branch (equalities in
the real-number embedding; the jointly computed put-side fields are related
to the standalone formulas through `Φ(−x) = 1 − Φ(x)`). -/
theorem compute_all_matches_standalone (stock strike rate sigma maturity : ℝ) :
    (compute_all stock strike rate sigma maturity).call_price =
        call stock strike rate sigma maturity ∧
    (compute_all stock strike rate sigma maturity).call_delta =
        call_delta stock strike rate sigma maturity ∧
    (compute_all stock strike rate sigma maturity).call_gamma =
        call_gamma stock strike rate sigma maturity ∧
    (compute_all stock strike rate sigma maturity).call_theta =
        call_theta stock strike rate sigma maturity ∧
    (compute_all stock strike rate sigma maturity).call_vega =
        call_vega stock strike rate sigma maturity ∧
    (compute_all stock strike rate sigma maturity).call_rho =
        call_rho stock strike rate sigma maturity ∧
    (compute_all stock strike rate sigma maturity).put_price =
        put stock strike rate sigma maturity ∧
    (compute_all stock strike rate sigma maturity).put_delta =
        put_delta stock strike rate sigma maturity ∧
    (compute_all stock strike rate sigma maturity).put_gamma =
        put_gamma stock strike rate sigma maturity ∧
    (compute_all stock strike rate sigma maturity).put_theta =
        put_theta stock strike rate sigma maturity ∧
    (compute_all stock strike rate sigma maturity).put_vega =
        put_vega stock strike rate sigma maturity ∧
    (compute_all stock strike rate sigma maturity).put_rho =
        put_rho stock strike rate sigma maturity := by
  by_cases h : Real.sqrt maturity * sigma > 0
  · simp only [compute_all, call, put, call_delta, put_delta, call_gamma, put_gamma,
      call_vega, put_vega, call_theta, put_theta, call_rho, put_rho, call_discount,
      put_discount, if_pos h]
    set a := Real.sqrt maturity * sigma with ha
    set dv := d1 stock strike (Real.exp (-rate * maturity)) a with hdv
    have r1 : cum_norm (-dv) = 1 - cum_norm dv := cum_norm_neg dv
    have r2 : cum_norm (a - dv) = 1 - cum_norm (dv - a) := by
      rw [show a - dv = -(dv - a) by ring, cum_norm_neg]
    have r3 : cum_norm (-dv + a) = 1 - cum_norm (dv - a) := by
      rw [show -dv + a = -(dv - a) by ring, cum_norm_neg]
    simp only [r1, r2, r3]
    refine ⟨?_, ?_, ?_, ?_, ?_, ?_, ?_, ?_, ?_, ?_, ?_, ?_⟩ <;>
      first
      | trivial
      | ring
  · simp only [compute_all, call, put, call_delta, put_delta, call_gamma, put_gamma,
      call_vega, put_vega, call_theta, put_theta, call_rho, put_rho, call_discount,
      put_discount, if_neg h]
    refine ⟨?_, ?_, ?_, ?_, ?_, ?_, ?_, ?_, ?_, ?_, ?_, ?_⟩ <;> trivial

/-! ## Implied-volatility solver (`black_schools.rs`, §4.3) -/

noncomputable section

/-- The constant `SQRT_TWO_PI = 2·√2 / (2/√π)` (`= √(2π)`). -/
def SQRT_TWO_PI : ℝ := 2 * SQRT_2 / FRAC_2_SQRT_PI

/-- Embeds `approximate_vol`, the Corrado-Miller (1996) closed-form initial
guess. -/
def approximate_vol (price s k rate maturity : ℝ) : ℝ :=
  let discount := Real.exp (-rate * maturity)
  let x := k * discount
  let coef := SQRT_TWO_PI / (s + x)
  let helper_1 := s - x
  let c1 := price - helper_1 * 0.5
  let c2 := c1 ^ 2
  let c3 := helper_1 ^ 2 / PI
  let bridge_1 := c2 - c3
  let bridge_m := if bridge_1 > 0 then Real.sqrt bridge_1 else 0
  coef * (c1 + bridge_m) / Real.sqrt maturity

/-- Modelled from the spec: `nrfind::find_root` is an external crate not in
this repository's sources.  Per §4.3 it is Newton-Raphson on `f` with
derivative `df`, returning the converged iterate as a success once
`|f| < precision`, and the last iterate as a distinguishable failure when the
iteration budget is exhausted.  The iteration count is the fuel. -/
def find_root (f df : ℝ → ℝ) (guess precision : ℝ) : ℕ → Except ℝ ℝ
  | 0 => Except.error guess
  | n + 1 =>
    if |f guess| < precision then Except.ok guess
    else find_root f df (guess - f guess / df guess) precision n

/-- Embeds `call_iv_guess` (tolerance `1e-6`, iteration cap `10000` from the
source). -/
def call_iv_guess (price s k rate maturity initial_guess : ℝ) : Except ℝ ℝ :=
  find_root (fun sigma => call s k rate sigma maturity - price)
    (fun sigma => call_vega s k rate sigma maturity) initial_guess 0.000001 10000

/-- Embeds `call_iv`. -/
def call_iv (price s k rate maturity : ℝ) : Except ℝ ℝ :=
  call_iv_guess price s k rate maturity (approximate_vol price s k rate maturity)

/-- Embeds `put_iv_guess`. -/
def put_iv_guess (price s k rate maturity initial_guess : ℝ) : Except ℝ ℝ :=
  find_root (fun sigma => put s k rate sigma maturity - price)
    (fun sigma => put_vega s k rate sigma maturity) initial_guess 0.000001 10000

/-- Embeds `put_iv`: the parity-converted call price is used for the initial
guess, and the solve is delegated to `put_iv_guess`. -/
def put_iv (price s k rate maturity : ℝ) : Except ℝ ℝ :=
  let c_price := price + s - k * Real.exp (-rate * maturity)
  put_iv_guess price s k rate maturity (approximate_vol c_price s k rate maturity)

end

/-- A Newton iteration whose objective stays out of tolerance and whose
derivative vanishes at the current iterate never moves (real-field division
by zero is zero), so `find_root` exhausts its budget and fails with that
iterate. -/
theorem find_root_stuck (f df : ℝ → ℝ) (x precision : ℝ)
    (hf : ¬ |f x| < precision) (hdf : df x = 0) :
    ∀ n, find_root f df x precision n = Except.error x := by
  intro n
  induction n with
  | zero => rfl
  | succ m ih =>
    unfold find_root
    rw [if_neg hf, hdf, div_zero, sub_zero]
    exact ih

/-- Claim C6, amended: `put_iv` converts the put price to the equivalent call
price via put-call parity, computes the Corrado-Miller initial guess from
that converted call price, but delegates to the put solver `put_iv_guess`
(Newton-Raphson on the put pricing function with the put vega as derivative)
with that guess — not to the call solver. -/
theorem put_iv_delegates_to_put_solver (price s k rate maturity : ℝ) :
    put_iv price s k rate maturity =
      put_iv_guess price s k rate maturity
        (approximate_vol (price + s - k * Real.exp (-rate * maturity)) s k rate maturity) :=
  rfl

/-- The Corrado-Miller guess is nonpositive when its `c1` term is nonpositive
and its discriminant `bridge_1` is nonpositive (so the square root is clamped
to zero), provided `s + k·e^{−rT} ≥ 0`. -/
theorem approximate_vol_nonpos (price s k rate maturity : ℝ)
    (h1 : price - (s - k * Real.exp (-rate * maturity)) * 0.5 ≤ 0)
    (h2 : (price - (s - k * Real.exp (-rate * maturity)) * 0.5) ^ 2 -
      (s - k * Real.exp (-rate * maturity)) ^ 2 / PI ≤ 0)
    (h3 : 0 ≤ s + k * Real.exp (-rate * maturity)) :
    approximate_vol price s k rate maturity ≤ 0 := by
  simp only [approximate_vol]
  rw [if_neg (not_lt.mpr h2)]
  have hco : 0 ≤ SQRT_TWO_PI / (s + k * Real.exp (-rate * maturity)) := by
    apply div_nonneg _ h3
    unfold SQRT_TWO_PI SQRT_2 FRAC_2_SQRT_PI
    positivity
  have hmul : SQRT_TWO_PI / (s + k * Real.exp (-rate * maturity)) *
      (price - (s - k * Real.exp (-rate * maturity)) * 0.5 + 0) ≤ 0 :=
    mul_nonpos_iff.mpr (Or.inl ⟨hco, by linarith⟩)
  exact div_nonpos_iff.mpr (Or.inr ⟨hmul, Real.sqrt_nonneg _⟩)

/-- Claim C6 fails as stated: at `p = 0`, `S = 3/2`, `K = 1`, `r = −ln 2`,
`T = 1` the Corrado-Miller guess computed from the parity-converted call
price is negative, so both pricing functions sit in their degenerate branch
at the guess.  There the put objective is already `0` (within tolerance), so
`put_iv` succeeds immediately with the guess, while the call objective equals
`1` with zero vega, so the claimed delegation to the call solver would never
move and exhausts its budget with a failure: the two results differ (`ok`
versus `error`). -/
theorem put_iv_delegation_counterexample :
    put_iv 0 (3/2) 1 (-Real.log 2) 1 ≠
      call_iv_guess (0 + 3/2 - 1 * Real.exp (-(-Real.log 2) * 1)) (3/2) 1 (-Real.log 2) 1
        (approximate_vol (0 + 3/2 - 1 * Real.exp (-(-Real.log 2) * 1)) (3/2) 1
          (-Real.log 2) 1) := by
  have hexp : Real.exp (-(-Real.log 2) * 1) = 2 := by
    rw [show (-(-Real.log 2) * 1 : ℝ) = Real.log 2 by ring,
      Real.exp_log (by norm_num : (0:ℝ) < 2)]
  have hc : (0 : ℝ) + 3/2 - 1 * Real.exp (-(-Real.log 2) * 1) = -(1/2) := by
    rw [hexp]; norm_num
  have hg0 : approximate_vol (-(1/2)) (3/2) 1 (-Real.log 2) 1 ≤ 0 := by
    apply approximate_vol_nonpos
    · rw [hexp]; norm_num
    · rw [hexp]
      have hple := Real.pi_le_four
      have hppos := Real.pi_pos
      simp only [PI]
      rw [sub_nonpos, le_div_iff₀ hppos]
      nlinarith
    · rw [hexp]; norm_num
  set g := approximate_vol (-(1/2)) (3/2) 1 (-Real.log 2) 1 with hgdef
  have hgmul : Real.sqrt 1 * g = g := by rw [Real.sqrt_one, one_mul]
  have hput : put (3/2) 1 (-Real.log 2) g 1 = 0 := by
    rw [put, hgmul, put_discount, if_neg (not_lt.mpr hg0)]
    simp [max_or_zero]
    norm_num
  have hcallg : call (3/2) 1 (-Real.log 2) g 1 = 1/2 := by
    rw [call, hgmul, call_discount, if_neg (not_lt.mpr hg0)]
    simp [max_or_zero]
    norm_num
  have hvega : call_vega (3/2) 1 (-Real.log 2) g 1 = 0 := by
    rw [call_vega]
    simp only [hgmul]
    rw [if_neg (not_lt.mpr hg0)]
  have hLHS : put_iv 0 (3/2) 1 (-Real.log 2) 1 = Except.ok g := by
    show put_iv_guess 0 (3/2) 1 (-Real.log 2) 1
      (approximate_vol ((0:ℝ) + 3/2 - 1 * Real.exp (-(-Real.log 2) * 1)) (3/2) 1
        (-Real.log 2) 1) = Except.ok g
    rw [hc, ← hgdef, put_iv_guess, show (10000:ℕ) = 9999 + 1 from rfl, find_root,
      if_pos (by rw [hput]; norm_num)]
  have hRHS : call_iv_guess ((0:ℝ) + 3/2 - 1 * Real.exp (-(-Real.log 2) * 1)) (3/2) 1
      (-Real.log 2) 1
      (approximate_vol ((0:ℝ) + 3/2 - 1 * Real.exp (-(-Real.log 2) * 1)) (3/2) 1
        (-Real.log 2) 1) = Except.error g := by
    rw [hc, ← hgdef, call_iv_guess]
    apply find_root_stuck
    · rw [hcallg]
      rw [abs_of_nonneg (by norm_num : (0:ℝ) ≤ 1/2 - -(1/2))]
      norm_num
    · exact hvega
  rw [hLHS, hRHS]
  simp

/-! ## Composed live-pricing stream (`black_schools_stream.rs`)

`black_schools_stream.rs` composes a crate-root `VolatilityStream` (single
type parameter, `usize` window length, emitting a bare `f64`) with a
crate-root `black_schools_call`.  Both are referenced through `crate::` but
absent from the sources at hand (only `main.rs`'s module tree survives, and
its `VolatilityStream` has an incompatible signature), so they are modelled
from the spec below (§4.4 windowed estimator, §4.6 discount-based call
formula); the composition itself is embedded from the source. -/

/-- Arithmetic mean of a window. -/
noncomputable def listMean (l : List ℝ) : ℝ := l.sum / l.length

/-- Population standard deviation of a window: mean, then averaged squared
deviations, then square root (spec §4.4). -/
noncomputable def popStdDev (l : List ℝ) : ℝ :=
  Real.sqrt ((l.map fun x => (x - listMean l) ^ 2).sum / l.length)

/-- Modelled from the spec: the state of the crate-root windowed
`VolatilityStream` used by `black_schools_stream.rs` — the bounded FIFO
window of prices (most recent first) and its capacity (§3 "Window state"). -/
structure WindowedVolatilityState where
  window : List ℝ
  memory : ℕ

/-- Modelled from the spec (§4.4): push the price into the trailing window,
evicting beyond capacity; while the window is below capacity produce no
output, once it holds `memory` prices emit the population standard deviation
of the window. -/
noncomputable def WindowedVolatilityState.tryHandlePrice
    (s : WindowedVolatilityState) (price : ℝ) : WindowedVolatilityState × Option ℝ :=
  let w := (price :: s.window).take s.memory
  (⟨w, s.memory⟩, if w.length < s.memory then none else some (popStdDev w))

/-- Modelled from the spec (§4.6): the crate-root `black_schools_call` passes
the current price, the strike, the discount and the emitted volatility into
the pricing engine's discount-based call formula. -/
noncomputable def black_schools_call (price strike discount volatility : ℝ) : ℝ :=
  call_discount price strike discount volatility

/-- Embeds the state fields of `BlackSchoolsStream`
(`black_schools_stream.rs`; the inner `price_stream` is driver plumbing). -/
structure BlackSchoolsStreamState where
  volatility : WindowedVolatilityState
  strike : ℝ
  discount : ℝ

/-- Embeds `BlackSchoolsStream::new`. -/
def BlackSchoolsStreamState.new (volatility_duration : ℕ) (strike discount : ℝ) :
    BlackSchoolsStreamState :=
  ⟨⟨[], volatility_duration⟩, strike, discount⟩

/-- Embeds `BlackSchoolsStream::try_handle_price`: `?`-propagation of the
volatility stream's suspension, then the discount-based call formula on the
emitted volatility. -/
noncomputable def BlackSchoolsStreamState.tryHandlePrice (s : BlackSchoolsStreamState)
    (price : ℝ) : BlackSchoolsStreamState × Option ℝ :=
  let r := s.volatility.tryHandlePrice price
  ({ s with volatility := r.1 },
    r.2.map fun volatility => black_schools_call price s.strike s.discount volatility)

/-- Driving the composed stream over a list of prices, one tick at a time. -/
noncomputable def BlackSchoolsStreamState.feed (s : BlackSchoolsStreamState) :
    List ℝ → BlackSchoolsStreamState
  | [] => s
  | p :: ps => ((s.tryHandlePrice p).1).feed ps

theorem take_append_take (A B : List ℝ) (N : ℕ) :
    (A ++ B.take N).take N = (A ++ B).take N := by
  rw [List.take_append_eq_append_take, List.take_append_eq_append_take, List.take_take]
  congr 1
  rw [Nat.min_eq_left (Nat.sub_le _ _)]

theorem feed_strike (ps : List ℝ) (s : BlackSchoolsStreamState) :
    (s.feed ps).strike = s.strike := by
  induction ps generalizing s with
  | nil => rfl
  | cons p ps ih => exact ih _

theorem feed_discount (ps : List ℝ) (s : BlackSchoolsStreamState) :
    (s.feed ps).discount = s.discount := by
  induction ps generalizing s with
  | nil => rfl
  | cons p ps ih => exact ih _

theorem feed_memory (ps : List ℝ) (s : BlackSchoolsStreamState) :
    (s.feed ps).volatility.memory = s.volatility.memory := by
  induction ps generalizing s with
  | nil => rfl
  | cons p ps ih => exact ih _

theorem feed_window (ps : List ℝ) (s : BlackSchoolsStreamState)
    (h : s.volatility.window.length ≤ s.volatility.memory) :
    (s.feed ps).volatility.window =
      (ps.reverse ++ s.volatility.window).take s.volatility.memory := by
  induction ps generalizing s with
  | nil => simp [BlackSchoolsStreamState.feed, List.take_of_length_le h]
  | cons p ps ih =>
    have hstep : ((s.tryHandlePrice p).1).volatility =
        ⟨(p :: s.volatility.window).take s.volatility.memory, s.volatility.memory⟩ := rfl
    show ((s.tryHandlePrice p).1.feed ps).volatility.window = _
    rw [ih _ (by rw [hstep]; simp [List.length_take]), hstep]
    simp only [List.reverse_cons, List.append_assoc, List.singleton_append]
    exact take_append_take _ _ _

/-- Claim C8: the composed live-pricing stream, fed any history of prices
from a fresh state, answers the next tick with no output while fewer than `N`
prices have accumulated, and afterwards with exactly one option price per
tick, obtained by passing the emitted volatility (population standard
deviation of the trailing window), the current price, the fixed strike and
the fixed discount into the discount-based call formula. -/
theorem black_schools_stream_emission (N : ℕ) (strike discount : ℝ)
    (prices : List ℝ) (p : ℝ) :
    (((BlackSchoolsStreamState.new N strike discount).feed prices).tryHandlePrice p).2 =
      if prices.length + 1 < N then none
      else some (call_discount p strike discount
        (popStdDev ((p :: prices.reverse).take N))) := by
  have hw := feed_window prices (BlackSchoolsStreamState.new N strike discount)
    (by simp [BlackSchoolsStreamState.new])
  simp only [BlackSchoolsStreamState.new, List.append_nil] at hw
  have hm := feed_memory prices (BlackSchoolsStreamState.new N strike discount)
  have hs := feed_strike prices (BlackSchoolsStreamState.new N strike discount)
  have hd := feed_discount prices (BlackSchoolsStreamState.new N strike discount)
  simp only [BlackSchoolsStreamState.new] at hm hs hd
  simp only [BlackSchoolsStreamState.tryHandlePrice, WindowedVolatilityState.tryHandlePrice,
    BlackSchoolsStreamState.new, black_schools_call]
  simp only [hw, hm, hs, hd]
  rw [show (p :: prices.reverse.take N).take N = (p :: prices.reverse).take N from
    take_append_take [p] prices.reverse N]
  have hlen : ((p :: prices.reverse).take N).length = min N (prices.length + 1) := by
    simp [List.length_take]
  by_cases hcase : prices.length + 1 < N
  · rw [if_pos (by rw [hlen]; omega), if_pos hcase]
    rfl
  · rw [if_neg (by rw [hlen]; omega), if_neg hcase]
    rfl

end BlackSkulls
